import Mathlib

/-!
Verification development for the BirchEngine ECS core
(`Src/ECS/ECS.h`) and `Src/ECS/TransformComponent.h`.

Modelling conventions:
* `std::size_t` ids are `Nat`; the bounded `std::bitset`/`std::array` indices
  (`maxComponents`, `maxGroups`, both 32) are `Fin 32`, since the source only
  ever indexes those containers with them and out-of-range indexing is
  undefined behaviour in C++.
* A heap pointer to a `Component` instance is modelled as the index of that
  instance in the owning entity's append-only `components` vector (the vector
  is never erased from, so indices are stable identities).
* A heap pointer to an `Entity` is modelled as an allocation id into the
  manager's `store`; `unique_ptr` ownership in `entities` and the raw pointers
  in `groupedEntities` both hold such ids.
* Virtual dispatch (`Component::init`/`Component::update` overridden by the
  concrete variant) is modelled by parametrising the caller over the function
  the dynamic type supplies.
-/

namespace ECS

/-- `constexpr std::size_t maxComponents = 32;` (ECS.h line 40). -/
abbrev maxComponents : Nat := 32

/-- `constexpr std::size_t maxGroups = 32;` (ECS.h line 41). -/
abbrev maxGroups : Nat := 32

/-- `using ComponentID = std::size_t;` — used only to index
`ComponentBitSet`/`ComponentArray`, both of capacity `maxComponents`. -/
abbrev ComponentID := Fin maxComponents

/-- `using Group = std::size_t;` — used only to index `GroupBitSet` and the
`groupedEntities` array, both of capacity `maxGroups`. -/
abbrev GroupId := Fin maxGroups

/-- A concrete component instance.  `tid` is the `getComponentTypeID<T>()`
slot of its dynamic type `T`; `payload` abstracts the variant state produced
by `new T(std::forward<TArgs>(mArgs)...)`. -/
structure Component where
  tid : ComponentID
  payload : Nat
deriving DecidableEq

/-- The `Entity` class (ECS.h lines 71–138): an active flag (default `true`),
the owned `components` vector in attachment order, the typed direct-index
`componentArray` (an uninitialised slot is `none`; reading it is UB in the
source), and the two bitsets (zero-initialised by `std::bitset`). -/
structure Entity where
  active : Bool
  components : List Component
  componentArray : ComponentID → Option Nat
  componentBitSet : ComponentID → Bool
  groupBitSet : GroupId → Bool

/-- `Entity(Manager& mManager)` — a freshly constructed entity. -/
def Entity.new : Entity :=
  { active := true
    components := []
    componentArray := fun _ => none
    componentBitSet := fun _ => false
    groupBitSet := fun _ => false }

/-- `bool isActive() const { return active; }` (ECS.h line 93). -/
def Entity.isActive (e : Entity) : Bool := e.active

/-- `void destroy() { active = false; }` (ECS.h line 95). -/
def Entity.destroy (e : Entity) : Entity := { e with active := false }

/-- `bool hasGroup(Group mGroup)` (ECS.h lines 97–100). -/
def Entity.hasGroup (e : Entity) (g : GroupId) : Bool := e.groupBitSet g

/-- `void delGroup(Group mGroup)` (ECS.h lines 103–106): clears the bit only;
the group index is not touched. -/
def Entity.delGroup (e : Entity) (g : GroupId) : Entity :=
  { e with groupBitSet := fun g2 => if g2 = g then false else e.groupBitSet g2 }

/-- `hasComponent<T>()` (ECS.h lines 109–112): reads the presence bit at the
type's slot. -/
def Entity.hasComponent (e : Entity) (t : ComponentID) : Bool :=
  e.componentBitSet t

/-- `addComponent<T>(mArgs...)` (ECS.h lines 114–131): constructs the new
instance, appends it to the owned `components` vector, overwrites the typed
slot `componentArray[getComponentTypeID<T>()]` with a pointer to it, sets the
presence bit, and finally runs `c->init()` on the stored instance (in-place
mutation; the pointer identity is unchanged).  `initF` is the `init` body the
dynamic type `T` dispatches to, acting on the instance state; `t` is
`getComponentTypeID<T>()`.  Returns the updated entity together with the
returned reference, i.e. the index of the just-attached instance. -/
def Entity.addComponent (initF : Nat → Nat) (t : ComponentID) (payload : Nat)
    (e : Entity) : Entity × Nat :=
  let r := e.components.length
  ({ e with
      components := e.components ++ [⟨t, initF payload⟩]
      componentArray := fun t2 => if t2 = t then some r else e.componentArray t2
      componentBitSet := fun t2 => if t2 = t then true else e.componentBitSet t2 },
   r)

/-- `getComponent<T>()` (ECS.h lines 133–137): reads `componentArray` at the
type's slot with no presence check and dereferences the pointer.  The model
returns the instance index; `none` is the uninitialised-slot read that is UB
in the source. -/
def Entity.getComponent (e : Entity) (t : ComponentID) : Option Nat :=
  e.componentArray t

/-- `Entity::update()` (ECS.h lines 85–88): `for (auto& c : components)
c->update();` — applies each component's dynamic `update` in attachment
order.  `f` is the state transformation the dynamic dispatch performs on each
component. -/
def Entity.update (f : Component → Component) (e : Entity) : Entity :=
  { e with components := e.components.map f }

/-- The `Manager` class (ECS.h lines 144–200): `nextId`/`store` model the
heap of `Entity` allocations, `entities` is the primary
`vector<unique_ptr<Entity>>` (ids in insertion order) and `groupedEntities`
the `array<vector<Entity*>, maxGroups>` of group indices. -/
structure Manager where
  nextId : Nat
  store : Nat → Option Entity
  entities : List Nat
  groupedEntities : GroupId → List Nat

/-- A default-constructed manager: no allocations, empty collections. -/
def Manager.new : Manager :=
  { nextId := 0
    store := fun _ => none
    entities := []
    groupedEntities := fun _ => [] }

/-- `mEntity->isActive()` read through an `Entity*`.  Reading a freed entity
is UB in the source; the model answers `false` there (no claim exercises that
case, since group compaction precedes primary-collection deallocation). -/
def Manager.entityActive (m : Manager) (id : Nat) : Bool :=
  match m.store id with
  | some e => e.active
  | none => false

/-- `mEntity->hasGroup(i)` read through an `Entity*` (same UB note as
`entityActive`). -/
def Manager.entityHasGroup (m : Manager) (id : Nat) (g : GroupId) : Bool :=
  match m.store id with
  | some e => e.groupBitSet g
  | none => false

/-- In-place mutation of the entity object behind pointer `id` (the store is
the heap; `unique_ptr` aliases are unaffected). -/
def Manager.modifyEntity (m : Manager) (id : Nat) (f : Entity → Entity) : Manager :=
  { m with store := fun j => if j = id then (m.store j).map f else m.store j }

/-- `Entity& addEntity()` (ECS.h lines 193–199): heap-allocates a fresh
entity, appends the owning pointer to the primary collection, and returns a
reference (the new id). -/
def Manager.addEntity (m : Manager) : Manager × Nat :=
  ({ nextId := m.nextId + 1
     store := fun j => if j = m.nextId then some Entity.new else m.store j
     entities := m.entities ++ [m.nextId]
     groupedEntities := m.groupedEntities },
   m.nextId)

/-- `void addToGroup(Entity* mEntity, Group mGroup)` (ECS.h lines 183–186):
`groupedEntities[mGroup].emplace_back(mEntity)` — unconditional append. -/
def Manager.addToGroup (m : Manager) (id : Nat) (g : GroupId) : Manager :=
  { m with
    groupedEntities := fun g2 =>
      if g2 = g then m.groupedEntities g2 ++ [id] else m.groupedEntities g2 }

/-- `std::vector<Entity*>& getGroup(Group mGroup)` (ECS.h lines 188–191). -/
def Manager.getGroup (m : Manager) (g : GroupId) : List Nat :=
  m.groupedEntities g

/-- Modelled from the spec: `Entity::addGroup(Group)` is declared at ECS.h
line 102 but its body lives in `ECS.cpp`, which is not part of the given
sources.  Per spec §4.2, `addGroup` mutates the entity's group-membership set
and "additionally notifies the owning Registry to insert this Entity into
that group's index" via `addToGroup`. -/
def Manager.addGroup (m : Manager) (id : Nat) (g : GroupId) : Manager :=
  (m.modifyEntity id fun e =>
    { e with groupBitSet := fun g2 => if g2 = g then true else e.groupBitSet g2 }
  ).addToGroup id g

/-- `Entity::destroy()` invoked through the manager's heap. -/
def Manager.destroy (m : Manager) (id : Nat) : Manager :=
  m.modifyEntity id Entity.destroy

/-- `void refresh()` (ECS.h lines 160–181).  First pass: for every group
`i < maxGroups`, `erase(remove_if(...))` drops exactly the references whose
entity is inactive or no longer claims group `i` — i.e. a filter keeping
active members, reading entity state as it is before any deallocation.
Second pass: `erase(remove_if(...))` on the primary collection drops every
inactive entity, and the owning `unique_ptr`s free those objects (the store
forgets them). -/
def Manager.refresh (m : Manager) : Manager :=
  { nextId := m.nextId
    store := fun j =>
      if m.entities.contains j && !(m.entityActive j) then none else m.store j
    entities := m.entities.filter fun id => m.entityActive id
    groupedEntities := fun g =>
      (m.groupedEntities g).filter fun id =>
        m.entityActive id && m.entityHasGroup id g }

/-- `void update()` (ECS.h lines 151–154): `for (auto& e : entities)
e->update();` in order, with no `isActive` test.  `f` is the per-component
dynamic update. -/
def Manager.update (f : Component → Component) (m : Manager) : Manager :=
  { m with
    store := m.entities.foldl
      (fun s id => fun j => if j = id then (s j).map (Entity.update f) else s j)
      m.store }

/-- The sequence of entities on which the `Manager::update` loop invokes
`Entity::update`, in iteration order (the loop at ECS.h line 153 visits the
primary collection front to back, accumulating one call per element). -/
def Manager.updateTrace (m : Manager) : List Nat :=
  m.entities.foldl (fun acc id => acc ++ [id]) []

/-- Modelled from the spec: `Vector2D.h` is not among the given sources
(only its uses in `TransformComponent.h` and `Game.cpp` are).  Per the
source comment at TransformComponent.h line 69, `Norm()` computes
`std::sqrt(pow(x, 2) + pow(y, 2))`; `Zero()` zeroes both coordinates, and a
default-constructed vector is the zero vector.  The `float` coordinates are
modelled as reals; on the inputs the claims exercise every floating-point
operation is exact, so the real model agrees with `float` there. -/
structure Vector2D where
  x : ℝ
  y : ℝ

/-- Modelled from the spec: `Vector2D::Zero()` — the zero vector that
`Zero()` writes and that default construction produces. -/
noncomputable def Vector2D.Zero : Vector2D := ⟨0, 0⟩

/-- `Vector2D::Norm()` as documented by the source comment at
TransformComponent.h line 69: `std::sqrt(pow(x, 2) + pow(y, 2))`. -/
noncomputable def Vector2D.Norm (v : Vector2D) : ℝ :=
  Real.sqrt (v.x ^ 2 + v.y ^ 2)

/-- `static_cast<int>` applied to a `float`: conversion truncates toward
zero. -/
noncomputable def castInt (r : ℝ) : ℤ :=
  if 0 ≤ r then ⌊r⌋ else ⌈r⌉

/-- Modelled from the spec: `Constants.h` is not among the given sources;
`TILE_SIZE` initialises the `height`/`width` members.  Its value is
immaterial to every claim. -/
def TILE_SIZE : Int := 32

/-- `TransformComponent` (TransformComponent.h lines 6–73): position,
velocity and facing vectors, integer dimensions, scale and speed.  The
`speedLo`/`speedHi` members (initialised to `NULL`, i.e. zero) are carried
for fidelity though no claim reads them. -/
structure TransformComponent where
  position : Vector2D
  velocity : Vector2D
  facing : Vector2D
  height : Int
  width : Int
  scale : ℝ
  speed : ℝ
  speedLo : ℝ
  speedHi : ℝ

/-- The member-initialised state every constructor body starts from
(TransformComponent.h lines 10–21): default-constructed vectors,
`TILE_SIZE` dimensions, `scale = 1`, `speed = 3`, `speedLo = speedHi =
NULL`. -/
noncomputable def TransformComponent.base : TransformComponent :=
  { position := Vector2D.Zero
    velocity := Vector2D.Zero
    facing := Vector2D.Zero
    height := TILE_SIZE
    width := TILE_SIZE
    scale := 1
    speed := 3
    speedLo := 0
    speedHi := 0 }

/-- `TransformComponent()` (lines 23–26): `position.Zero()`. -/
noncomputable def TransformComponent.ctorDefault : TransformComponent :=
  { TransformComponent.base with position := Vector2D.Zero }

/-- `TransformComponent(float sc)` (lines 28–32). -/
noncomputable def TransformComponent.ctorScale (sc : ℝ) : TransformComponent :=
  { TransformComponent.base with position := Vector2D.Zero, scale := sc }

/-- `TransformComponent(float x, float y)` (lines 34–38). -/
noncomputable def TransformComponent.ctorPos (x y : ℝ) : TransformComponent :=
  { TransformComponent.base with position := ⟨x, y⟩ }

/-- `TransformComponent(float x, float y, int h, int w, float sc)`
(lines 41–48). -/
noncomputable def TransformComponent.ctorPosDims (x y : ℝ) (h w : Int)
    (sc : ℝ) : TransformComponent :=
  { TransformComponent.base with
      position := ⟨x, y⟩, height := h, width := w, scale := sc }

/-- `TransformComponent(float x, float y, Vector2D direction, int h, int w,
float sc)` (lines 50–59). -/
noncomputable def TransformComponent.ctorFull (x y : ℝ) (direction : Vector2D)
    (h w : Int) (sc : ℝ) : TransformComponent :=
  { TransformComponent.base with
      position := ⟨x, y⟩, facing := ⟨direction.x, direction.y⟩,
      height := h, width := w, scale := sc }

/-- `TransformComponent::init()` (lines 62–65): `velocity.Zero()`. -/
noncomputable def TransformComponent.init (t : TransformComponent) :
    TransformComponent :=
  { t with velocity := Vector2D.Zero }

/-- `TransformComponent::update()` (lines 67–72): each position coordinate
gains the `static_cast<int>`-truncated component of `velocity * speed`
divided by the norm, or of `velocity * speed` alone when the norm is
zero. -/
noncomputable def TransformComponent.update (t : TransformComponent) :
    TransformComponent :=
  let norm := t.velocity.Norm
  { t with position :=
      { x := t.position.x +
          ((if norm ≠ 0 then castInt ((t.velocity.x * t.speed) / norm)
            else castInt (t.velocity.x * t.speed) : ℤ) : ℝ)
        y := t.position.y +
          ((if norm ≠ 0 then castInt ((t.velocity.y * t.speed) / norm)
            else castInt (t.velocity.y * t.speed) : ℤ) : ℝ) } }

/-- The state of a `TransformComponent` instance at the moment
`Entity::addComponent<TransformComponent>` returns it: the constructed state
with `init()` applied, since ECS.h line 129 runs `c->init()` after linking
and registration and before returning the reference. -/
noncomputable def TransformComponent.attach (t : TransformComponent) :
    TransformComponent :=
  t.init

/-- The operations the ECS exposes to its callers (spec §6), as a single
step alphabet over the manager state: entity creation, logical destruction,
group joins/leaves, raw group-index insertion, component attachment, the
per-frame update pass, and compaction.  `draw` is omitted: it mutates no ECS
state. -/
inductive Op where
  | addEntity
  | destroy (id : Nat)
  | addGroup (id : Nat) (g : GroupId)
  | delGroup (id : Nat) (g : GroupId)
  | addToGroup (id : Nat) (g : GroupId)
  | addComponent (id : Nat) (t : ComponentID) (payload : Nat) (initF : Nat → Nat)
  | update (f : Component → Component)
  | refresh

/-- One step of the transition system: each operation's effect on the
manager state, exactly as defined by the corresponding source member
function. -/
def Op.step (m : Manager) : Op → Manager
  | .addEntity => (m.addEntity).1
  | .destroy id => m.destroy id
  | .addGroup id g => m.addGroup id g
  | .delGroup id g => m.modifyEntity id (fun e => e.delGroup g)
  | .addToGroup id g => m.addToGroup id g
  | .addComponent id t payload initF =>
      m.modifyEntity id (fun e => (e.addComponent initF t payload).1)
  | .update f => m.update f
  | .refresh => m.refresh

/-- A one-entity manager for concrete evaluation: entity `0` is created,
joins group `0`, and is then destroyed (its active flag is cleared). -/
def sampleDestroyed : Manager :=
  ((Manager.new.addEntity).1.addGroup 0 0).destroy 0

/-- A one-entity manager for concrete evaluation: entity `0` is created and
stays active. -/
def sampleAlive : Manager :=
  (Manager.new.addEntity).1

/-- Claim C1: for every entity `e` and component type slot `t`, after
`addComponent<T>(args)` returns, `hasComponent<T>()` is `true` and
`getComponent<T>()` yields exactly the reference returned by that
`addComponent` call — the just-attached instance, whose stored state is the
constructed state after `init` ran. -/
theorem addComponent_attaches (e : Entity) (t : ComponentID) (payload : Nat)
    (initF : Nat → Nat) :
    (e.addComponent initF t payload).1.hasComponent t = true ∧
    (e.addComponent initF t payload).1.getComponent t
      = some (e.addComponent initF t payload).2 ∧
    ((e.addComponent initF t payload).1.components)[(e.addComponent initF t payload).2]?
      = some ⟨t, initF payload⟩ := by
  refine ⟨?_, ?_, ?_⟩
  · simp [Entity.addComponent, Entity.hasComponent]
  · simp [Entity.addComponent, Entity.getComponent]
  · simp [Entity.addComponent, List.getElem?_concat_length]

/-- Claim C3: attaching the same component type twice leaves both instances
alive in the owned `components` vector (the first at index `n`, the second at
`n + 1`, where `n` is the prior length), while the typed lookup afterwards
resolves to the second instance only. -/
theorem addComponent_twice_shadows (e : Entity) (t : ComponentID)
    (p1 p2 : Nat) (initF : Nat → Nat) :
    (((e.addComponent initF t p1).1.addComponent initF t p2).1.components)[e.components.length]?
      = some ⟨t, initF p1⟩ ∧
    (((e.addComponent initF t p1).1.addComponent initF t p2).1.components)[e.components.length + 1]?
      = some ⟨t, initF p2⟩ ∧
    ((e.addComponent initF t p1).1.addComponent initF t p2).1.getComponent t
      = some (e.components.length + 1) ∧
    (((e.addComponent initF t p1).1.addComponent initF t p2).1.components).length
      = e.components.length + 2 := by
  refine ⟨?_, ?_, ?_, ?_⟩
  · simp [Entity.addComponent]
    rw [List.getElem_append_right (Nat.le_refl _)]
    simp
  · simp [Entity.addComponent]
    rw [List.getElem_append_right (Nat.le_add_right _ _)]
    simp
  · simp [Entity.addComponent, Entity.getComponent]
  · simp [Entity.addComponent]

/-- Claim C5: `Manager::addToGroup` performs no de-duplication: every call
appends one reference, so the group index length grows by one regardless of
prior membership, the count of the given entity grows by one, and two calls
with the same entity/group pair leave two more references than before. -/
theorem addToGroup_no_dedup (m : Manager) (id : Nat) (g : GroupId) :
    ((m.addToGroup id g).groupedEntities g).length
      = (m.groupedEntities g).length + 1 ∧
    ((m.addToGroup id g).groupedEntities g).count id
      = (m.groupedEntities g).count id + 1 ∧
    (((m.addToGroup id g).addToGroup id g).groupedEntities g).count id
      = (m.groupedEntities g).count id + 2 := by
  refine ⟨?_, ?_, ?_⟩
  · simp [Manager.addToGroup]
  · simp [Manager.addToGroup]
  · simp [Manager.addToGroup]

/-- Claim C7: the group-index pass of `Manager::refresh` is a pure filter:
for every group `g` it keeps exactly the references whose entity is still
active and still claims `g` (removing the inactive-or-unclaimed ones), and
the survivors keep their relative order (the result is a sublist of the
original index). -/
theorem refresh_group_pass_filter (m : Manager) (g : GroupId) :
    m.refresh.groupedEntities g
      = (m.groupedEntities g).filter
          (fun id => m.entityActive id && m.entityHasGroup id g) ∧
    (m.refresh.groupedEntities g).Sublist (m.groupedEntities g) ∧
    (∀ id, id ∈ m.refresh.groupedEntities g ↔
      id ∈ m.groupedEntities g ∧ m.entityActive id = true ∧
        m.entityHasGroup id g = true) := by
  refine ⟨rfl, List.filter_sublist _, ?_⟩
  intro id
  simp [Manager.refresh, List.mem_filter]

/-- Claim C2: for every entity whose active flag has been cleared by
`destroy()`, a subsequent `Manager::refresh()` removes it from all
`maxGroups` group indices and from the primary collection: no group index
observed after that refresh references it. -/
theorem refresh_removes_destroyed (m : Manager) (id : Nat)
    (h : m.entityActive id = false) :
    (∀ g : GroupId, id ∉ m.refresh.groupedEntities g) ∧
    id ∉ m.refresh.entities := by
  constructor
  · intro g hmem
    simp only [Manager.refresh, List.mem_filter, Bool.and_eq_true] at hmem
    rw [h] at hmem
    exact Bool.false_ne_true hmem.2.1
  · intro hmem
    simp only [Manager.refresh, List.mem_filter] at hmem
    rw [h] at hmem
    exact Bool.false_ne_true hmem.2

/-- Witness for C2 on the concrete manager `sampleDestroyed` (entity `0`
created, added to group `0`, destroyed): the hypothesis holds and so does
the conclusion after `refresh`. -/
theorem refresh_removes_destroyed_witness :
    sampleDestroyed.entityActive 0 = false ∧
    ((∀ g : GroupId, 0 ∉ sampleDestroyed.refresh.groupedEntities g) ∧
      0 ∉ sampleDestroyed.refresh.entities) :=
  ⟨by decide, refresh_removes_destroyed sampleDestroyed 0 (by decide)⟩

/-- Claim C4: group-membership round-trip.  For an active entity `id` (alive
in the heap with `active = true`) not already referenced by group `g`'s
index, one `addGroup g` followed by `refresh()` leaves exactly one reference
to `id` in `getGroup g`. -/
theorem addGroup_refresh_count_one (m : Manager) (id : Nat) (ent : Entity)
    (g : GroupId) (h1 : m.store id = some ent) (h2 : ent.active = true)
    (h3 : id ∉ m.groupedEntities g) :
    ((m.addGroup id g).refresh.getGroup g).count id = 1 := by
  have hact : (m.addGroup id g).entityActive id = true := by
    simp [Manager.addGroup, Manager.addToGroup, Manager.modifyEntity,
      Manager.entityActive, h1, h2]
  have hgrp : (m.addGroup id g).entityHasGroup id g = true := by
    simp [Manager.addGroup, Manager.addToGroup, Manager.modifyEntity,
      Manager.entityHasGroup, h1]
  have hidx : (m.addGroup id g).groupedEntities g = m.groupedEntities g ++ [id] := by
    simp [Manager.addGroup, Manager.addToGroup, Manager.modifyEntity]
  have hpred : ((fun j => (m.addGroup id g).entityActive j &&
      (m.addGroup id g).entityHasGroup j g) id) = true := by
    simp [hact, hgrp]
  calc ((m.addGroup id g).refresh.getGroup g).count id
      = ((m.addGroup id g).groupedEntities g).count id := by
        unfold Manager.refresh Manager.getGroup
        exact List.count_filter hpred
    _ = (m.groupedEntities g).count id + 1 := by
        rw [hidx]
        simp
    _ = 1 := by
        rw [List.count_eq_zero_of_not_mem h3]

/-- Helper: the update fold leaves untouched the heap slot of any id that the
iterated list does not contain. -/
theorem updateStore_not_mem (f : Component → Component) (l : List Nat)
    (s : Nat → Option Entity) (id : Nat) (h : id ∉ l) :
    l.foldl
      (fun s2 i => fun j => if j = i then (s2 j).map (Entity.update f) else s2 j)
      s id = s id := by
  induction l generalizing s with
  | nil => rfl
  | cons a t ih =>
      have hne : id ≠ a := fun he => h (he ▸ List.mem_cons_self a t)
      have hnt : id ∉ t := fun ht => h (List.mem_cons_of_mem a ht)
      rw [List.foldl_cons, ih _ hnt]
      simp [hne]

/-- Helper: when the iterated list has no duplicates, the update fold applies
the entity update exactly once to each listed id. -/
theorem updateStore_mem (f : Component → Component) (l : List Nat)
    (s : Nat → Option Entity) (id : Nat) (hnd : l.Nodup) (h : id ∈ l) :
    l.foldl
      (fun s2 i => fun j => if j = i then (s2 j).map (Entity.update f) else s2 j)
      s id = (s id).map (Entity.update f) := by
  induction l generalizing s with
  | nil => exact absurd h (List.not_mem_nil id)
  | cons a t ih =>
      rw [List.foldl_cons]
      rcases List.mem_cons.1 h with he | ht
      · subst he
        have hnt : id ∉ t := (List.nodup_cons.1 hnd).1
        rw [updateStore_not_mem f t _ id hnt]
        simp
      · have hne : id ≠ a := by
          intro he
          exact (List.nodup_cons.1 hnd).1 (he ▸ ht)
        rw [ih _ (List.nodup_cons.1 hnd).2 ht]
        simp [hne]

/-- Helper: accumulating loop iteration order — the trace fold returns the
accumulator followed by the iterated list. -/
theorem trace_foldl (l : List Nat) (acc : List Nat) :
    l.foldl (fun acc2 id => acc2 ++ [id]) acc = acc ++ l := by
  induction l generalizing acc with
  | nil => simp
  | cons a t ih =>
      rw [List.foldl_cons, ih]
      simp

/-- Claim C6: `Manager::update` invokes `Entity::update` on every entity in
the primary collection in insertion order, with no `isActive` check: the
invocation trace is exactly the primary collection, and every listed entity
— its active flag notwithstanding — has the per-component update applied to
its state exactly once. -/
theorem update_visits_all_entities (m : Manager) (f : Component → Component)
    (hnd : m.entities.Nodup) :
    m.updateTrace = m.entities ∧
    ∀ id ∈ m.entities,
      (m.update f).store id = (m.store id).map (Entity.update f) := by
  constructor
  · unfold Manager.updateTrace
    rw [trace_foldl]
    simp
  · intro id hid
    unfold Manager.update
    exact updateStore_mem f m.entities m.store id hnd hid

/-- Witness for C6 on `sampleDestroyed`: entity `0` is inactive (destroyed)
yet `Manager::update` still applies the component update to it, and the
trace is the primary collection. -/
theorem update_visits_all_entities_witness :
    sampleDestroyed.entities.Nodup ∧
    (sampleDestroyed.updateTrace = sampleDestroyed.entities ∧
     ∀ id ∈ sampleDestroyed.entities,
       (sampleDestroyed.update (fun c => c)).store id
         = (sampleDestroyed.store id).map (Entity.update (fun c => c))) :=
  ⟨by decide, update_visits_all_entities sampleDestroyed (fun c => c) (by decide)⟩

/-- Claim C8: entity activity state machine.  For every manager state, every
exposed operation and every entity in the primary collection: an active
entity is never removed by any single operation, and an entity found removed
after an operation must already have been inactive before it — every removal
passes through the Inactive state, with no direct Active-to-Removed
transition. -/
theorem no_active_removal (m : Manager) (op : Op) (id : Nat)
    (hmem : id ∈ m.entities) :
    (m.entityActive id = true → id ∈ (Op.step m op).entities) ∧
    (id ∉ (Op.step m op).entities → m.entityActive id = false) := by
  cases op with
  | addEntity =>
      exact ⟨fun _ => List.mem_append_left _ hmem,
        fun hnot => absurd (List.mem_append_left _ hmem) hnot⟩
  | destroy id2 => exact ⟨fun _ => hmem, fun hnot => absurd hmem hnot⟩
  | addGroup id2 g => exact ⟨fun _ => hmem, fun hnot => absurd hmem hnot⟩
  | delGroup id2 g => exact ⟨fun _ => hmem, fun hnot => absurd hmem hnot⟩
  | addToGroup id2 g => exact ⟨fun _ => hmem, fun hnot => absurd hmem hnot⟩
  | addComponent id2 t payload initF =>
      exact ⟨fun _ => hmem, fun hnot => absurd hmem hnot⟩
  | update f => exact ⟨fun _ => hmem, fun hnot => absurd hmem hnot⟩
  | refresh =>
      constructor
      · intro hact
        exact List.mem_filter.2 ⟨hmem, hact⟩
      · intro hnot
        by_contra hne
        have hact : m.entityActive id = true := by
          cases hb : m.entityActive id
          · exact absurd hb hne
          · rfl
        exact hnot (List.mem_filter.2 ⟨hmem, hact⟩)

/-- Witness for C8: in `sampleDestroyed` entity `0` is in the primary
collection; applying the theorem at the `refresh` step instantiates both
directions of the activity state machine on a concrete input. -/
theorem no_active_removal_witness :
    0 ∈ sampleDestroyed.entities ∧
    ((sampleDestroyed.entityActive 0 = true →
        0 ∈ (Op.step sampleDestroyed Op.refresh).entities) ∧
     (0 ∉ (Op.step sampleDestroyed Op.refresh).entities →
        sampleDestroyed.entityActive 0 = false)) :=
  ⟨by decide, no_active_removal sampleDestroyed Op.refresh 0 (by decide)⟩

/-- Witness for C4 on the concrete manager `sampleAlive` (entity `0`
created, active, not yet in any group index): after `addGroup 0` and
`refresh`, group `0` references entity `0` exactly once. -/
theorem addGroup_refresh_count_one_witness :
    sampleAlive.store 0 = some Entity.new ∧
    Entity.new.active = true ∧
    0 ∉ sampleAlive.groupedEntities 0 ∧
    ((sampleAlive.addGroup 0 0).refresh.getGroup 0).count 0 = 1 :=
  ⟨rfl, rfl, by decide,
    addGroup_refresh_count_one sampleAlive 0 Entity.new 0 rfl rfl (by decide)⟩

/-- Claim C9: a `TransformComponent` with velocity `(1, 0)` and speed `3`
(all other members arbitrary) moves by exactly `3` in `x` and by `0` in `y`
on one `update()` call: the norm is `1`, the non-zero-norm branch is taken,
and `static_cast<int>((1 * 3) / 1) = 3`. -/
theorem transform_update_unit_velocity (p f : Vector2D) (h w : Int)
    (sc sLo sHi : ℝ) :
    (TransformComponent.mk p ⟨1, 0⟩ f h w sc 3 sLo sHi).update.position
      = ⟨p.x + 3, p.y⟩ := by
  have hnorm : (Vector2D.Norm ⟨1, 0⟩) = 1 := by
    unfold Vector2D.Norm
    norm_num
  unfold TransformComponent.update
  simp only [hnorm]
  norm_num [castInt]

/-- Helper: any `TransformComponent` whose velocity is the zero vector takes
the zero-norm branch of `update()` and its position is unchanged. -/
theorem update_position_of_velocity_zero (t : TransformComponent)
    (hv : t.velocity = Vector2D.Zero) : t.update.position = t.position := by
  have hnorm : t.velocity.Norm = 0 := by
    rw [hv]
    unfold Vector2D.Norm Vector2D.Zero
    norm_num
  unfold TransformComponent.update
  simp [hnorm, hv, Vector2D.Zero, castInt]

/-- Claim C10: whichever of the five constructor overloads built the
instance and with arbitrary arguments, the `TransformComponent` state
`addComponent` hands back has velocity `(0, 0)` (`init()` runs after linking
and zeroes it; no constructor writes it), so an `update()` before any
velocity assignment leaves the position unchanged. -/
theorem transform_velocity_zero_after_attach (sc x y : ℝ)
    (direction : Vector2D) (h w : Int) :
    (TransformComponent.ctorDefault.attach.velocity = Vector2D.Zero ∧
     TransformComponent.ctorDefault.attach.update.position
       = TransformComponent.ctorDefault.attach.position) ∧
    ((TransformComponent.ctorScale sc).attach.velocity = Vector2D.Zero ∧
     (TransformComponent.ctorScale sc).attach.update.position
       = (TransformComponent.ctorScale sc).attach.position) ∧
    ((TransformComponent.ctorPos x y).attach.velocity = Vector2D.Zero ∧
     (TransformComponent.ctorPos x y).attach.update.position
       = (TransformComponent.ctorPos x y).attach.position) ∧
    ((TransformComponent.ctorPosDims x y h w sc).attach.velocity
       = Vector2D.Zero ∧
     (TransformComponent.ctorPosDims x y h w sc).attach.update.position
       = (TransformComponent.ctorPosDims x y h w sc).attach.position) ∧
    ((TransformComponent.ctorFull x y direction h w sc).attach.velocity
       = Vector2D.Zero ∧
     (TransformComponent.ctorFull x y direction h w sc).attach.update.position
       = (TransformComponent.ctorFull x y direction h w sc).attach.position) := by
  have hv : ∀ t : TransformComponent, t.attach.velocity = Vector2D.Zero := by
    intro t
    rfl
  refine ⟨⟨hv _, ?_⟩, ⟨hv _, ?_⟩, ⟨hv _, ?_⟩, ⟨hv _, ?_⟩, ⟨hv _, ?_⟩⟩ <;>
    exact update_position_of_velocity_zero _ (hv _)

end ECS
